import Mathlib

/-!
# Shallow embedding of the orderflow-api core

This file embeds the Rust source of `orderflow-api` in Lean 4 and proves
properties of the submission pipeline, the risk gate and the engine facade.

Conventions of the embedding:

* Rust `i64` / `u64` values are embedded as `ℤ` / `ℕ`; where the source relies
  on wrap-around (the `AtomicU64` counters), the update is taken modulo `2^64`
  explicitly.
* Rust `f64` prices are embedded as exact rationals `ℚ`.  Every price that
  reaches the arithmetic in question is a short decimal, far away from the
  magnitudes at which binary floating point and exact rational arithmetic
  diverge relative to the 0.001 tolerances used by the source.
* `DashMap`s are embedded as association lists updated in first-occurrence
  order (`positions`, `order_registry`).
* The C++ order book behind `ffi/bindings.rs` is not part of the Rust sources;
  the Rust layers treat it as an opaque state machine behind `OwnedOrderBook`.
  It is embedded as an arbitrary `BookModel` transition system, so every
  theorem quantifying over a `BookModel` holds for every possible book
  behaviour.
* The `governor` rate limiter is a real-time token bucket; it is embedded as
  an arbitrary `RateModel` transition system for the same reason.
* Error messages built with `format!` in the source carry interpolated values;
  they are embedded as their constant text, since no code path inspects the
  interpolated parts (the only message inspection in the source is the
  `contains("not found")` test on reasons produced by the external book).
-/

namespace Orderflow

/-- `models/order.rs`: order side. -/
inductive Side
  | buy
  | sell
deriving DecidableEq

/-- `models/order.rs`: order type. -/
inductive OrderType
  | limit
  | market
deriving DecidableEq

/-- `models/order.rs`: time in force. -/
inductive TimeInForce
  | gtc
  | ioc
  | fok
deriving DecidableEq

/-- `models/order.rs`: self-trade-prevention mode. -/
inductive StpMode
  | allow
  | cancelNewest
  | cancelOldest
  | cancelBoth
  | decrementAndCancel
deriving DecidableEq

/-- `models/error.rs`: the API error taxonomy. -/
inductive ApiError
  | Validation (msg : String)
  | NotFound (id : ℕ)
  | EngineRejection (msg : String)
  | RiskRejection (msg : String)
  | RateLimited (msg : String)
  | Internal (msg : String)
deriving DecidableEq

/-- `models/order.rs`: an order submission request (`price` in decimal dollars). -/
structure OrderRequest where
  trader_id : String
  price : Option ℚ
  quantity : ℤ
  side : Side
  order_type : OrderType
  time_in_force : TimeInForce
  stp_mode : StpMode
deriving DecidableEq

/-- `models/trade.rs`: a trade in an order response (`price` in decimal dollars). -/
structure TradeResponse where
  trade_id : ℕ
  buy_order_id : ℕ
  sell_order_id : ℕ
  price : ℚ
  quantity : ℤ
deriving DecidableEq

/-- `models/order.rs`: response to a submission. -/
structure OrderResponse where
  order_id : ℕ
  accepted : Bool
  reject_reason : Option String
  trades : List TradeResponse
  remaining_quantity : ℤ
deriving DecidableEq

/-- `models/order.rs`: a modify request. -/
structure ModifyRequest where
  new_price : ℚ
  new_quantity : ℤ
deriving DecidableEq

/-- `models/order.rs`: response to a modify. -/
structure ModifyResponse where
  order_id : ℕ
  accepted : Bool
  reject_reason : Option String
  old_price : ℚ
  new_price : ℚ
  old_quantity : ℤ
  new_quantity : ℤ
deriving DecidableEq

/-- `models/order.rs`: response to a cancel. -/
structure CancelResponse where
  order_id : ℕ
  cancelled : Bool
deriving DecidableEq

/-- `models/market.rs`: the public market snapshot (decimal dollars). -/
structure MarketSnapshot where
  best_bid : Option ℚ
  best_ask : Option ℚ
  spread : Option ℚ
  mid_price : Option ℚ
  last_trade_price : Option ℚ
  last_trade_qty : Option ℤ
deriving DecidableEq

/-- `config.rs`: the risk configuration. -/
structure RiskConfig where
  min_order_size : ℤ
  max_order_size : ℤ
  price_band_percent : ℚ
  max_position_per_trader : ℤ
  max_orders_per_second : ℕ
deriving DecidableEq

/-- `services/risk_service.rs`: value type of the order registry. -/
structure OrderRegistration where
  trader_id : String
  side : Side
deriving DecidableEq

/-- The position ledger: `DashMap<String, i64>` as an association list. -/
abbrev Positions := List (String × ℤ)

/-- The order registry: `DashMap<u64, OrderRegistration>` as an association list. -/
abbrev Registry := List (ℕ × OrderRegistration)

/-- `positions.get(trader_id).map(|v| *v).unwrap_or(0)`: first-occurrence lookup
with default `0`. -/
def getPosition (positions : Positions) (trader_id : String) : ℤ :=
  match positions with
  | [] => 0
  | e :: rest => if e.1 = trader_id then e.2 else getPosition rest trader_id

/-- `risk_service.rs  apply_delta`: `entry(trader).and_modify(|p| *p += delta).or_insert(delta)`. -/
def apply_delta (positions : Positions) (trader_id : String) (delta : ℤ) : Positions :=
  match positions with
  | [] => [(trader_id, delta)]
  | e :: rest =>
    if e.1 = trader_id then (e.1, e.2 + delta) :: rest
    else e :: apply_delta rest trader_id delta

/-- `order_registry.get(&order_id)`: first-occurrence lookup. -/
def lookupRegistry (reg : Registry) (order_id : ℕ) : Option OrderRegistration :=
  match reg with
  | [] => none
  | e :: rest => if e.1 = order_id then some e.2 else lookupRegistry rest order_id

/-- `risk_service.rs  register_order`: `order_registry.insert(order_id, ..)`
(replaces an existing entry for the key, otherwise appends). -/
def register_order (reg : Registry) (order_id : ℕ) (trader_id : String) (side : Side) :
    Registry :=
  match reg with
  | [] => [(order_id, ⟨trader_id, side⟩)]
  | e :: rest =>
    if e.1 = order_id then (order_id, ⟨trader_id, side⟩) :: rest
    else e :: register_order rest order_id trader_id side

/-- `risk_service.rs  unregister_order`: `order_registry.remove(&order_id)`. -/
def unregister_order (reg : Registry) (order_id : ℕ) : Registry :=
  match reg with
  | [] => []
  | e :: rest =>
    if e.1 = order_id then unregister_order rest order_id
    else e :: unregister_order rest order_id

/-- `risk_service.rs  check_order_size`. -/
def check_order_size (cfg : RiskConfig) (quantity : ℤ) : Except ApiError Unit :=
  if quantity < cfg.min_order_size then
    .error (.RiskRejection "Order size below minimum")
  else if cfg.max_order_size < quantity then
    .error (.RiskRejection "Order size exceeds maximum")
  else .ok ()

/-- `risk_service.rs  check_price_band`: mid price as reference, falling back to
the last trade price; skip unless the reference is positive. -/
def check_price_band (cfg : RiskConfig) (price : ℚ) (snapshot : MarketSnapshot) :
    Except ApiError Unit :=
  let reference :=
    match snapshot.mid_price with
    | some m => some m
    | none => snapshot.last_trade_price
  match reference with
  | some r =>
    if 0 < r then
      let band := cfg.price_band_percent / 100
      let lower := r * (1 - band)
      let upper := r * (1 + band)
      if price < lower ∨ upper < price then
        .error (.RiskRejection "Price outside band around reference")
      else .ok ()
    else .ok ()
  | none => .ok ()

/-- `risk_service.rs  check_position_limit`: reject if the projected position
exceeds the limit in absolute value.  The source only reads the ledger here
(`positions.get`); accordingly the embedding returns no new ledger. -/
def check_position_limit (cfg : RiskConfig) (positions : Positions) (trader_id : String)
    (quantity : ℤ) (side : Side) : Except ApiError Unit :=
  let current := getPosition positions trader_id
  let delta := match side with | Side.buy => quantity | Side.sell => -quantity
  let projected := current + delta
  if cfg.max_position_per_trader < |projected| then
    .error (.RiskRejection "Position limit exceeded")
  else .ok ()

/-- `risk_service.rs  check_order`: size check, then the price band for limit
orders carrying a price, then the position limit. -/
def check_order (cfg : RiskConfig) (positions : Positions) (trader_id : String)
    (quantity : ℤ) (side : Side) (order_type : OrderType) (price : Option ℚ)
    (snapshot : MarketSnapshot) : Except ApiError Unit := do
  check_order_size cfg quantity
  if order_type = OrderType.limit then
    match price with
    | some p => check_price_band cfg p snapshot
    | none => pure ()
  else pure ()
  check_position_limit cfg positions trader_id quantity side

/-- `risk_service.rs  update_positions_from_trades`: the buyer of a trade. -/
def buyerOf (reg : Registry) (submitting_trader : String) (submitting_side : Side)
    (t : ℕ × ℕ × ℤ) : String :=
  if submitting_side = Side.buy then submitting_trader
  else (((lookupRegistry reg t.1).map (fun r => r.trader_id)).getD "")

/-- `risk_service.rs  update_positions_from_trades`: the seller of a trade. -/
def sellerOf (reg : Registry) (submitting_trader : String) (submitting_side : Side)
    (t : ℕ × ℕ × ℤ) : String :=
  if submitting_side = Side.sell then submitting_trader
  else (((lookupRegistry reg t.2.1).map (fun r => r.trader_id)).getD "")

/-- `risk_service.rs  update_positions_from_trades`: body of the `for` loop for
one trade `(buy_order_id, sell_order_id, qty)`: `+qty` to the buyer when the
buyer string is non-empty, then `-qty` to the seller when the seller string is
non-empty. -/
def updateTrade (reg : Registry) (submitting_trader : String) (submitting_side : Side)
    (positions : Positions) (t : ℕ × ℕ × ℤ) : Positions :=
  let buyer := buyerOf reg submitting_trader submitting_side t
  let positions1 := if buyer ≠ "" then apply_delta positions buyer t.2.2 else positions
  let seller := sellerOf reg submitting_trader submitting_side t
  if seller ≠ "" then apply_delta positions1 seller (-t.2.2) else positions1

/-- `risk_service.rs  update_positions_from_trades`: fold of `updateTrade` over
the trade list. -/
def update_positions_from_trades (reg : Registry) (submitting_trader : String)
    (submitting_side : Side) (trades : List (ℕ × ℕ × ℤ)) (positions : Positions) :
    Positions :=
  trades.foldl (updateTrade reg submitting_trader submitting_side) positions

/-- Sum of all ledger entries (Σ positions across all traders). -/
def posSum (positions : Positions) : ℤ :=
  (positions.map (fun e => e.2)).sum

/-- `f64::round` of Rust: round half away from zero. -/
def roundHalfAwayFromZero (x : ℚ) : ℤ :=
  if 0 ≤ x then ⌊x + 1 / 2⌋ else ⌈x - 1 / 2⌉

/-- `engine/orderbook.rs  dollars_to_cents`: reject negative prices, round to
cents, and reject when the cent round-trip moves the price by more than
`0.001`. -/
def dollars_to_cents (dollars : ℚ) : Except ApiError ℤ :=
  if dollars < 0 then .error (.Validation "Price cannot be negative")
  else
    let cents := roundHalfAwayFromZero (dollars * 100)
    let roundtrip := (cents : ℚ) / 100
    if 1 / 1000 < |roundtrip - dollars| then
      .error (.Validation "Price precision limited to 2 decimal places")
    else .ok cents

/-- `engine/orderbook.rs  cents_to_dollars`. -/
def cents_to_dollars (cents : ℤ) : ℚ := (cents : ℚ) / 100

/-- `engine/orderbook.rs  cents_to_optional_dollars`: zero is the absent
sentinel. -/
def cents_to_optional_dollars (cents : ℤ) : Option ℚ :=
  if cents = 0 then none else some (cents_to_dollars cents)

/-- `engine/orderbook.rs  validate_order_request`. -/
def validate_order_request (req : OrderRequest) : Except ApiError Unit :=
  if req.trader_id.isEmpty then .error (.Validation "traderId is required")
  else if 64 < req.trader_id.utf8ByteSize then
    .error (.Validation "traderId must be 64 characters or less")
  else if req.quantity ≤ 0 then .error (.Validation "Quantity must be positive")
  else if req.order_type = OrderType.limit then
    match req.price with
    | none => .error (.Validation "Limit orders require a price")
    | some p =>
      if p ≤ 0 then .error (.Validation "Price must be positive for limit orders")
      else .ok ()
  else .ok ()

/-- `ffi/types.rs  OB_SIDE_BUY`. -/
def OB_SIDE_BUY : ℕ := 0

/-- `ffi/types.rs  OB_SIDE_SELL`. -/
def OB_SIDE_SELL : ℕ := 1

/-- `ffi/types.rs  OB_ORDER_TYPE_LIMIT`. -/
def OB_ORDER_TYPE_LIMIT : ℕ := 0

/-- `ffi/types.rs  OB_ORDER_TYPE_MARKET`. -/
def OB_ORDER_TYPE_MARKET : ℕ := 1

/-- `ffi/types.rs  OB_TIF_GTC`. -/
def OB_TIF_GTC : ℕ := 0

/-- `ffi/types.rs  OB_TIF_IOC`. -/
def OB_TIF_IOC : ℕ := 1

/-- `ffi/types.rs  OB_TIF_FOK`. -/
def OB_TIF_FOK : ℕ := 2

/-- `ffi/types.rs  OB_STP_ALLOW`. -/
def OB_STP_ALLOW : ℕ := 0

/-- `ffi/types.rs  OB_STP_CANCEL_NEWEST`. -/
def OB_STP_CANCEL_NEWEST : ℕ := 1

/-- `ffi/types.rs  OB_STP_CANCEL_OLDEST`. -/
def OB_STP_CANCEL_OLDEST : ℕ := 2

/-- `ffi/types.rs  OB_STP_CANCEL_BOTH`. -/
def OB_STP_CANCEL_BOTH : ℕ := 3

/-- `ffi/types.rs  OB_STP_DECREMENT_AND_CANCEL`. -/
def OB_STP_DECREMENT_AND_CANCEL : ℕ := 4

/-- `ffi/types.rs  ObOrderT`: the order record handed to the external book
(`price` is `price.unwrap_or(0)` with a separate `has_price` flag, as built in
`safe_wrapper.rs  add_order`). -/
structure BookOrder where
  trader_id : String
  id : ℕ
  price : ℤ
  quantity : ℤ
  side : ℕ
  order_type : ℕ
  time_in_force : ℕ
  stp_mode : ℕ
  has_price : Bool
deriving DecidableEq

/-- `ffi/safe_wrapper.rs  Trade`: a trade reported by the external book
(price in integer cents). -/
structure BookTrade where
  trade_id : ℕ
  buy_order_id : ℕ
  sell_order_id : ℕ
  price : ℤ
  quantity : ℤ
  timestamp_ns : ℤ
deriving DecidableEq

/-- `ffi/safe_wrapper.rs  StpResult`. -/
structure StpResult where
  self_trade : Bool
  cancelled_orders : List ℕ
  action : Option String
deriving DecidableEq

/-- `ffi/safe_wrapper.rs  OrderResult`: result of `OwnedOrderBook::add_order`. -/
structure OrderResult where
  accepted : Bool
  reject_reason : Option String
  trades : List BookTrade
  remaining_quantity : ℤ
  stp_result : StpResult
deriving DecidableEq

/-- `ffi/safe_wrapper.rs  ModifyResult`: result of `OwnedOrderBook::modify_order`. -/
structure ModifyResult where
  accepted : Bool
  reject_reason : Option String
  old_price : ℤ
  new_price : ℤ
  old_quantity : ℤ
  new_quantity : ℤ
deriving DecidableEq

/-- `ffi/safe_wrapper.rs  PriceData`: the raw book snapshot in integer cents,
with `0` as the absent sentinel. -/
structure PriceData where
  timestamp_ns : ℤ
  bid_price : ℤ
  ask_price : ℤ
  mid_price : ℤ
  spread : ℤ
  last_trade_price : ℤ
  last_trade_qty : ℤ
deriving DecidableEq

/-- The external C++ order book (`OwnedOrderBook`) as an arbitrary state
machine over a state type `β`.  Its source is not part of the repository's
`src/`; the Rust layers only observe it through these four operations, so the
theorems below quantify over every possible book behaviour. -/
structure BookModel (β : Type) where
  add_order : β → BookOrder → β × OrderResult
  cancel_order : β → ℕ → β × Bool
  modify_order : β → ℕ → ℤ → ℤ → β × ModifyResult
  get_snapshot : β → PriceData

/-- `2^64`, the modulus of the `AtomicU64` counters. -/
def U64MOD : ℕ := 2 ^ 64

/-- `engine/orderbook.rs  Engine`: the book plus the atomic counters. -/
structure EngineState (β : Type) where
  book : β
  next_order_id : ℕ
  total_orders : ℕ
  total_trades : ℕ
deriving DecidableEq

/-- `engine/orderbook.rs  Engine::new`: counters start at `1` (ids) and `0`. -/
def Engine.new {β : Type} (b : β) : EngineState β :=
  { book := b, next_order_id := 1, total_orders := 0, total_trades := 0 }

/-- `Side → u32` mapping of `engine/orderbook.rs  add_order`. -/
def sideCode : Side → ℕ
  | Side.buy => OB_SIDE_BUY
  | Side.sell => OB_SIDE_SELL

/-- `OrderType → u32` mapping of `engine/orderbook.rs  add_order`. -/
def orderTypeCode : OrderType → ℕ
  | OrderType.limit => OB_ORDER_TYPE_LIMIT
  | OrderType.market => OB_ORDER_TYPE_MARKET

/-- `TimeInForce → u32` mapping of `engine/orderbook.rs  add_order`. -/
def tifCode : TimeInForce → ℕ
  | TimeInForce.gtc => OB_TIF_GTC
  | TimeInForce.ioc => OB_TIF_IOC
  | TimeInForce.fok => OB_TIF_FOK

/-- `StpMode → u32` mapping of `engine/orderbook.rs  add_order`. -/
def stpCode : StpMode → ℕ
  | StpMode.allow => OB_STP_ALLOW
  | StpMode.cancelNewest => OB_STP_CANCEL_NEWEST
  | StpMode.cancelOldest => OB_STP_CANCEL_OLDEST
  | StpMode.cancelBoth => OB_STP_CANCEL_BOTH
  | StpMode.decrementAndCancel => OB_STP_DECREMENT_AND_CANCEL

/-- `engine/orderbook.rs  add_order`, lines 45-53: the `price_cents`
computation (market orders carry no price; limit orders convert via
`dollars_to_cents`). -/
def Engine.price_cents (req : OrderRequest) : Except ApiError (Option ℤ) :=
  match req.order_type with
  | OrderType.market => .ok none
  | OrderType.limit =>
    match req.price with
    | none => .error (.Validation "Limit orders require a price")
    | some p => (dollars_to_cents p).map some

/-- The `ObOrderT` built by `engine/orderbook.rs  add_order` together with
`safe_wrapper.rs  add_order`: the freshly fetched id is the pre-call counter
value. -/
def Engine.submitted_order {β : Type} (e : EngineState β) (req : OrderRequest)
    (pc : Option ℤ) : BookOrder :=
  { trader_id := req.trader_id
    id := e.next_order_id
    price := pc.getD 0
    quantity := req.quantity
    side := sideCode req.side
    order_type := orderTypeCode req.order_type
    time_in_force := tifCode req.time_in_force
    stp_mode := stpCode req.stp_mode
    has_price := pc.isSome }

/-- `engine/orderbook.rs  Engine::add_order`: validate, fetch a fresh id
(`fetch_add`, wrapping at `2^64`), convert the price, call the book, bump the
counters, then translate the result. -/
def Engine.add_order {β : Type} (bm : BookModel β) (e : EngineState β)
    (req : OrderRequest) : Except ApiError OrderResponse × EngineState β :=
  match validate_order_request req with
  | .error err => (.error err, e)
  | .ok _ =>
    let order_id := e.next_order_id
    let e1 : EngineState β := { e with next_order_id := (e.next_order_id + 1) % U64MOD }
    match Engine.price_cents req with
    | .error err => (.error err, e1)
    | .ok pc =>
      let o := Engine.submitted_order e req pc
      let br := bm.add_order e1.book o
      let result := br.2
      let e2 : EngineState β :=
        { e1 with
          book := br.1
          total_orders := (e1.total_orders + 1) % U64MOD
          total_trades := (e1.total_trades + result.trades.length) % U64MOD }
      if result.accepted then
        (.ok
          { order_id := order_id
            accepted := true
            reject_reason := none
            trades := result.trades.map (fun t =>
              { trade_id := t.trade_id
                buy_order_id := t.buy_order_id
                sell_order_id := t.sell_order_id
                price := cents_to_dollars t.price
                quantity := t.quantity })
            remaining_quantity := result.remaining_quantity }, e2)
      else
        (.error (.EngineRejection (result.reject_reason.getD "Unknown rejection")), e2)

/-- `engine/orderbook.rs  Engine::cancel_order`: delegate to the book; a
`false` answer becomes `NotFound`. -/
def Engine.cancel_order {β : Type} (bm : BookModel β) (e : EngineState β)
    (order_id : ℕ) : Except ApiError CancelResponse × EngineState β :=
  let br := bm.cancel_order e.book order_id
  let e2 : EngineState β := { e with book := br.1 }
  if br.2 then (.ok { order_id := order_id, cancelled := true }, e2)
  else (.error (.NotFound order_id), e2)

/-- Rust `String::contains(pattern)` as a substring test on character lists. -/
def containsSub (s pattern : String) : Bool :=
  decide (pattern.toList <:+: s.toList)

/-- `engine/orderbook.rs  Engine::modify_order`: validate the new quantity and
price, convert to cents, delegate, and map a reject whose reason contains
`"not found"` to `NotFound`. -/
def Engine.modify_order {β : Type} (bm : BookModel β) (e : EngineState β)
    (order_id : ℕ) (req : ModifyRequest) :
    Except ApiError ModifyResponse × EngineState β :=
  if req.new_quantity ≤ 0 then (.error (.Validation "Quantity must be positive"), e)
  else if req.new_price < 0 then (.error (.Validation "Price cannot be negative"), e)
  else
    match dollars_to_cents req.new_price with
    | .error err => (.error err, e)
    | .ok new_price_cents =>
      let br := bm.modify_order e.book order_id new_price_cents req.new_quantity
      let result := br.2
      let e2 : EngineState β := { e with book := br.1 }
      if result.accepted then
        (.ok
          { order_id := order_id
            accepted := true
            reject_reason := none
            old_price := cents_to_dollars result.old_price
            new_price := cents_to_dollars result.new_price
            old_quantity := result.old_quantity
            new_quantity := result.new_quantity }, e2)
      else
        let reason := result.reject_reason.getD "Unknown rejection"
        if containsSub reason "not found" then (.error (.NotFound order_id), e2)
        else (.error (.EngineRejection reason), e2)

/-- `engine/orderbook.rs  Engine::get_snapshot`, lines 185-200: project the raw
cent snapshot to the public decimal snapshot, mapping zero sentinels to absent
fields. -/
def project_snapshot (snap : PriceData) : MarketSnapshot :=
  { best_bid := if 0 < snap.bid_price then some (cents_to_dollars snap.bid_price) else none
    best_ask := if 0 < snap.ask_price then some (cents_to_dollars snap.ask_price) else none
    spread :=
      if 0 < snap.bid_price ∧ 0 < snap.ask_price then some (cents_to_dollars snap.spread)
      else none
    mid_price :=
      if 0 < snap.bid_price ∧ 0 < snap.ask_price then some (cents_to_dollars snap.mid_price)
      else none
    last_trade_price := cents_to_optional_dollars snap.last_trade_price
    last_trade_qty :=
      if snap.last_trade_qty = 0 then none else some snap.last_trade_qty }

/-- `engine/orderbook.rs  Engine::get_snapshot`: a shared-lock read of the book
snapshot followed by the projection. -/
def Engine.get_snapshot {β : Type} (bm : BookModel β) (e : EngineState β) :
    MarketSnapshot :=
  project_snapshot (bm.get_snapshot e.book)

/-- The `governor` per-trader rate limiter as an arbitrary state machine: the
`Bool` is whether a token was available (`check_rate_limit` returning `Ok`). -/
structure RateModel (ρ : Type) where
  check : ρ → String → ρ × Bool

/-- `services/order_service.rs  OrderService` state: the engine, the risk
service's ledger and registry, and the rate limiter. -/
structure ServiceState (β ρ : Type) where
  engine : EngineState β
  positions : Positions
  registry : Registry
  limiter : ρ

/-- `services/order_service.rs  submit_order`: rate limit, snapshot read, risk
checks, engine admission, registration, two-sided position update,
unregistration on full fill. -/
def submit_order {β ρ : Type} (bm : BookModel β) (rlm : RateModel ρ) (cfg : RiskConfig)
    (s : ServiceState β ρ) (req : OrderRequest) :
    Except ApiError OrderResponse × ServiceState β ρ :=
  let rl := rlm.check s.limiter req.trader_id
  let s1 : ServiceState β ρ := { s with limiter := rl.1 }
  if !rl.2 then (.error (.RateLimited "Rate limit exceeded"), s1)
  else
    let snapshot := Engine.get_snapshot bm s1.engine
    match check_order cfg s1.positions req.trader_id req.quantity req.side req.order_type
        req.price snapshot with
    | .error err => (.error err, s1)
    | .ok _ =>
      match Engine.add_order bm s1.engine req with
      | (.error err, eng2) => (.error err, { s1 with engine := eng2 })
      | (.ok resp, eng2) =>
        let reg1 := register_order s1.registry resp.order_id req.trader_id req.side
        let trades := resp.trades.map (fun t => (t.buy_order_id, t.sell_order_id, t.quantity))
        let pos1 := update_positions_from_trades reg1 req.trader_id req.side trades s1.positions
        let reg2 := if resp.remaining_quantity = 0 then unregister_order reg1 resp.order_id
          else reg1
        (.ok resp, { s1 with engine := eng2, positions := pos1, registry := reg2 })

/-- `services/order_service.rs  modify_order`: delegate to the engine (the `?`
propagates engine errors); the registry is never touched on this path. -/
def service_modify_order {β ρ : Type} (bm : BookModel β) (s : ServiceState β ρ)
    (order_id : ℕ) (req : ModifyRequest) :
    Except ApiError ModifyResponse × ServiceState β ρ :=
  match Engine.modify_order bm s.engine order_id req with
  | (.error err, eng2) => (.error err, { s with engine := eng2 })
  | (.ok resp, eng2) => (.ok resp, { s with engine := eng2 })

/-- `services/order_service.rs  cancel_order`: delegate to the engine; the `?`
on the engine call returns before `unregister_order` runs, so only a
successful cancel unregisters. -/
def service_cancel_order {β ρ : Type} (bm : BookModel β) (s : ServiceState β ρ)
    (order_id : ℕ) : Except ApiError CancelResponse × ServiceState β ρ :=
  match Engine.cancel_order bm s.engine order_id with
  | (.error err, eng2) => (.error err, { s with engine := eng2 })
  | (.ok resp, eng2) =>
    (.ok resp, { s with engine := eng2, registry := unregister_order s.registry order_id })

/-! ## Concrete instantiations used by witnesses and counterexamples -/

/-- A book that accepts every order without trades, reports `false` on cancel
and rejects every modify with reason `"order not found"`. -/
def trivialBook : BookModel Unit where
  add_order := fun s o =>
    (s, { accepted := true, reject_reason := none, trades := [],
          remaining_quantity := o.quantity,
          stp_result := { self_trade := false, cancelled_orders := [], action := none } })
  cancel_order := fun s _ => (s, false)
  modify_order := fun s _ _ _ =>
    (s, { accepted := false, reject_reason := some "order not found",
          old_price := 0, new_price := 0, old_quantity := 0, new_quantity := 0 })
  get_snapshot := fun _ => ⟨0, 0, 0, 0, 0, 0, 0⟩

/-- A book whose state records every order submitted to it, in call order. -/
def recordingBook : BookModel (List BookOrder) where
  add_order := fun s o =>
    (s ++ [o], { accepted := true, reject_reason := none, trades := [],
                 remaining_quantity := o.quantity,
                 stp_result := { self_trade := false, cancelled_orders := [], action := none } })
  cancel_order := fun s _ => (s, false)
  modify_order := fun s _ _ _ =>
    (s, { accepted := false, reject_reason := some "order not found",
          old_price := 0, new_price := 0, old_quantity := 0, new_quantity := 0 })
  get_snapshot := fun _ => ⟨0, 0, 0, 0, 0, 0, 0⟩

/-- A rate limiter with no tokens: every request is rate-limited. -/
def denyAllRate : RateModel Unit where
  check := fun s _ => (s, false)

/-- A rate limiter that always grants a token. -/
def allowAllRate : RateModel Unit where
  check := fun s _ => (s, true)

/-- A small risk configuration for concrete runs. -/
def cfg0 : RiskConfig :=
  { min_order_size := 1, max_order_size := 10000, price_band_percent := 10,
    max_position_per_trader := 1000, max_orders_per_second := 100 }

/-- A fresh service state over the trivial book. -/
def svc0 : ServiceState Unit Unit :=
  { engine := Engine.new (), positions := [], registry := [], limiter := () }

/-- A valid limit order request (price `$100`, quantity `10`). -/
def req0 : OrderRequest :=
  { trader_id := "alice", price := some 100, quantity := 10, side := Side.buy,
    order_type := OrderType.limit, time_in_force := TimeInForce.gtc,
    stp_mode := StpMode.allow }

/-! ## Ledger and registry lemmas -/

theorem getPosition_apply_delta (positions : Positions) (t : String) (d : ℤ)
    (t' : String) :
    getPosition (apply_delta positions t d) t' =
      getPosition positions t' + (if t = t' then d else 0) := by
  induction positions with
  | nil =>
    by_cases h : t = t' <;> simp [apply_delta, getPosition, h]
  | cons e rest ih =>
    by_cases h : e.1 = t
    · by_cases h2 : e.1 = t'
      · have h3 : t = t' := by rw [← h, h2]
        simp [apply_delta, getPosition, h, h2, h3]
      · have h3 : ¬ t = t' := fun hc => h2 (h.trans hc)
        simp [apply_delta, getPosition, h, h2, h3]
    · by_cases h2 : e.1 = t'
      · have h3 : ¬ t = t' := fun hc => h (h2.trans hc.symm)
        have h4 : ¬ t' = t := fun hc => h3 hc.symm
        simp [apply_delta, getPosition, h, h2, h3, h4]
      · simp [apply_delta, getPosition, h, h2, ih]

theorem posSum_nil : posSum [] = 0 := rfl

theorem posSum_cons (e : String × ℤ) (rest : Positions) :
    posSum (e :: rest) = e.2 + posSum rest := by
  simp [posSum]

theorem posSum_apply_delta (positions : Positions) (t : String) (d : ℤ) :
    posSum (apply_delta positions t d) = posSum positions + d := by
  induction positions with
  | nil => simp [apply_delta, posSum]
  | cons e rest ih =>
    by_cases h : e.1 = t <;> simp [apply_delta, h, posSum_cons, ih] <;> ring

theorem lookupRegistry_mem {reg : Registry} {k : ℕ} {r : OrderRegistration}
    (h : lookupRegistry reg k = some r) : (k, r) ∈ reg := by
  induction reg with
  | nil => simp [lookupRegistry] at h
  | cons e rest ih =>
    obtain ⟨a, b⟩ := e
    by_cases he : a = k
    · simp only [lookupRegistry, he, if_pos] at h
      simp only [Option.some.injEq] at h
      subst he
      subst h
      exact List.mem_cons_self _ _
    · simp only [lookupRegistry, he, if_false, reduceIte] at h
      exact List.mem_cons_of_mem _ (ih h)

/-! ## C5: pre-trade position-limit check -/

/-- C5: the pre-trade position-limit check rejects with a risk rejection
exactly when `|current + (quantity if Buy else -quantity)|` exceeds
`max_position_per_trader`, where `current` is the trader's current ledger
position (`0` if absent); otherwise the check passes.  The check only reads
the ledger (the embedding returns no new ledger, mirroring the read-only
`positions.get` of the source). -/
theorem check_position_limit_spec (cfg : RiskConfig) (positions : Positions)
    (trader_id : String) (quantity : ℤ) (side : Side) :
    ((∃ msg, check_position_limit cfg positions trader_id quantity side =
        Except.error (ApiError.RiskRejection msg)) ↔
      cfg.max_position_per_trader <
        |getPosition positions trader_id +
          (if side = Side.buy then quantity else -quantity)|)
    ∧ (check_position_limit cfg positions trader_id quantity side = Except.ok () ↔
      |getPosition positions trader_id +
          (if side = Side.buy then quantity else -quantity)| ≤
        cfg.max_position_per_trader) := by
  cases side <;>
    · simp only [check_position_limit]
      split_ifs with h <;>
        simp_all [le_of_not_lt, not_le.mpr]

/-! ## C7: price-band check -/

/-- C7: the band check applies only to limit orders carrying a price (for a
market order or a price-free request, `check_order` does not read the
snapshot); the reference is the snapshot mid price if present, else the last
trade price; without a positive reference the check is skipped; with positive
reference `r` the price passes iff
`r*(1 - band) ≤ price ≤ r*(1 + band)` for `band = price_band_percent / 100`. -/
theorem check_price_band_spec :
    (∀ (cfg : RiskConfig) (positions : Positions) (trader_id : String) (quantity : ℤ)
        (side : Side) (price : Option ℚ) (snap1 snap2 : MarketSnapshot),
      check_order cfg positions trader_id quantity side OrderType.market price snap1 =
        check_order cfg positions trader_id quantity side OrderType.market price snap2)
    ∧ (∀ (cfg : RiskConfig) (positions : Positions) (trader_id : String) (quantity : ℤ)
        (side : Side) (snap1 snap2 : MarketSnapshot),
      check_order cfg positions trader_id quantity side OrderType.limit none snap1 =
        check_order cfg positions trader_id quantity side OrderType.limit none snap2)
    ∧ (∀ (cfg : RiskConfig) (price : ℚ) (snap : MarketSnapshot),
      snap.mid_price = none → snap.last_trade_price = none →
      check_price_band cfg price snap = Except.ok ())
    ∧ (∀ (cfg : RiskConfig) (price : ℚ) (snap : MarketSnapshot) (r : ℚ),
      (snap.mid_price = some r ∨ (snap.mid_price = none ∧ snap.last_trade_price = some r)) →
      r ≤ 0 → check_price_band cfg price snap = Except.ok ())
    ∧ (∀ (cfg : RiskConfig) (price : ℚ) (snap : MarketSnapshot) (r : ℚ),
      (snap.mid_price = some r ∨ (snap.mid_price = none ∧ snap.last_trade_price = some r)) →
      0 < r →
      (check_price_band cfg price snap = Except.ok () ↔
        r * (1 - cfg.price_band_percent / 100) ≤ price ∧
          price ≤ r * (1 + cfg.price_band_percent / 100))) := by
  refine ⟨fun _ _ _ _ _ _ _ _ => rfl, fun _ _ _ _ _ _ _ => rfl, ?_, ?_, ?_⟩
  · intro cfg price snap hmid hlast
    simp [check_price_band, hmid, hlast]
  · intro cfg price snap r href hr
    rcases href with hmid | ⟨hmid, hlast⟩
    · simp [check_price_band, hmid, not_lt.mpr hr]
    · simp [check_price_band, hmid, hlast, not_lt.mpr hr]
  · intro cfg price snap r href hr
    have hs : check_price_band cfg price snap =
        (if price < r * (1 - cfg.price_band_percent / 100) ∨
            r * (1 + cfg.price_band_percent / 100) < price then
          Except.error (ApiError.RiskRejection "Price outside band around reference")
        else Except.ok ()) := by
      rcases href with hmid | ⟨hmid, hlast⟩
      · simp [check_price_band, hmid, hr]
      · simp [check_price_band, hmid, hlast, hr]
    rw [hs]
    split_ifs with hband
    · constructor
      · intro hcontra
        exact absurd hcontra (by simp)
      · rintro ⟨h1, h2⟩
        exfalso
        rcases hband with hb | hb <;> linarith
    · push_neg at hband
      exact iff_of_true rfl hband

/-- C7 witness: with an empty snapshot (no mid, no last trade) the band check
accepts any price. -/
theorem check_price_band_spec_witness :
    check_price_band cfg0 50
      { best_bid := none, best_ask := none, spread := none, mid_price := none,
        last_trade_price := none, last_trade_qty := none } = Except.ok () :=
  check_price_band_spec.2.2.1 cfg0 50
    { best_bid := none, best_ask := none, spread := none, mid_price := none,
      last_trade_price := none, last_trade_qty := none } rfl rfl

/-! ## C9: snapshot projection -/

/-- C9: the snapshot projection maps zero sentinels to absent fields:
`best_bid` present iff the raw bid is positive (likewise `best_ask`),
`spread` and `mid_price` present iff both sides are, the last-trade fields
absent exactly when their raw value is zero, and present price fields are the
cent values converted to decimals. -/
theorem project_snapshot_spec (raw : PriceData) :
    ((project_snapshot raw).best_bid.isSome ↔ 0 < raw.bid_price)
    ∧ ((project_snapshot raw).best_ask.isSome ↔ 0 < raw.ask_price)
    ∧ ((project_snapshot raw).spread.isSome ↔
        ((project_snapshot raw).best_bid.isSome ∧ (project_snapshot raw).best_ask.isSome))
    ∧ ((project_snapshot raw).mid_price.isSome ↔
        ((project_snapshot raw).best_bid.isSome ∧ (project_snapshot raw).best_ask.isSome))
    ∧ ((project_snapshot raw).last_trade_price = none ↔ raw.last_trade_price = 0)
    ∧ ((project_snapshot raw).last_trade_qty = none ↔ raw.last_trade_qty = 0)
    ∧ (∀ q, (project_snapshot raw).best_bid = some q → q = cents_to_dollars raw.bid_price)
    ∧ (∀ q, (project_snapshot raw).best_ask = some q → q = cents_to_dollars raw.ask_price)
    ∧ (∀ q, (project_snapshot raw).spread = some q → q = cents_to_dollars raw.spread)
    ∧ (∀ q, (project_snapshot raw).mid_price = some q → q = cents_to_dollars raw.mid_price)
    ∧ (∀ q, (project_snapshot raw).last_trade_price = some q →
        q = cents_to_dollars raw.last_trade_price)
    ∧ (∀ q, (project_snapshot raw).last_trade_qty = some q → q = raw.last_trade_qty) := by
  simp only [project_snapshot, cents_to_optional_dollars]
  refine ⟨?_, ?_, ?_, ?_, ?_, ?_, ?_, ?_, ?_, ?_, ?_, ?_⟩ <;>
    (split_ifs <;> simp_all)

/-- C9 witness: a two-sided raw snapshot projects to a present best bid. -/
theorem project_snapshot_spec_witness :
    (project_snapshot ⟨0, 9900, 10100, 10000, 200, 10100, 50⟩).best_bid.isSome :=
  (project_snapshot_spec ⟨0, 9900, 10100, 10000, 200, 10100, 50⟩).1.mpr (by decide)

/-! ## C2: position zero-sum -/

/-- One call to `update_positions_from_trades`: the registry in effect at the
time of the call, the submitting trader and side, and the trade list. -/
structure PositionUpdateCall where
  registry : Registry
  submitting_trader : String
  submitting_side : Side
  trades : List (ℕ × ℕ × ℤ)
deriving DecidableEq

/-- A sequence of `update_positions_from_trades` calls applied to a ledger. -/
def runPositionUpdates (calls : List PositionUpdateCall) (positions : Positions) :
    Positions :=
  calls.foldl
    (fun pos c =>
      update_positions_from_trades c.registry c.submitting_trader c.submitting_side
        c.trades pos)
    positions

theorem posSum_updateTrade (reg : Registry) (sub : String) (side : Side)
    (pos : Positions) (t : ℕ × ℕ × ℤ)
    (hb : buyerOf reg sub side t ≠ "") (hs : sellerOf reg sub side t ≠ "") :
    posSum (updateTrade reg sub side pos t) = posSum pos := by
  simp only [updateTrade, hb, hs, if_pos, ne_eq, not_false_iff, if_true,
    posSum_apply_delta]
  ring

theorem posSum_update_positions (reg : Registry) (sub : String) (side : Side)
    (trades : List (ℕ × ℕ × ℤ)) (pos : Positions)
    (h : ∀ t ∈ trades, buyerOf reg sub side t ≠ "" ∧ sellerOf reg sub side t ≠ "") :
    posSum (update_positions_from_trades reg sub side trades pos) = posSum pos := by
  induction trades generalizing pos with
  | nil => rfl
  | cons t rest ih =>
    simp only [update_positions_from_trades, List.foldl_cons] at *
    rw [ih (updateTrade reg sub side pos t) (fun u hu => h u (List.mem_cons_of_mem _ hu))]
    exact posSum_updateTrade reg sub side pos t (h t (List.mem_cons_self _ _)).1
      (h t (List.mem_cons_self _ _)).2

/-- C2 counterexample: the claim fails as stated.  One call on an empty
registry (so the seller lookup fails and the seller side is skipped) leaves
the ledger sum at `5`, not `0`. -/
theorem positions_zero_sum_counterexample :
    posSum (runPositionUpdates [⟨[], "bob", Side.buy, [(1, 2, 5)]⟩] []) ≠ 0 := by
  decide

/-- C2 (amended): starting from an empty ledger, after any sequence of
`update_positions_from_trades` calls in which every trade's buyer and seller
resolve to a non-empty trader id (the submitting trader id is non-empty and
every registry lookup performed succeeds with a non-empty trader), the sum of
positions across all traders equals `0`. -/
theorem positions_zero_sum (calls : List PositionUpdateCall)
    (h : ∀ c ∈ calls, ∀ t ∈ c.trades,
      buyerOf c.registry c.submitting_trader c.submitting_side t ≠ "" ∧
        sellerOf c.registry c.submitting_trader c.submitting_side t ≠ "") :
    posSum (runPositionUpdates calls []) = 0 := by
  suffices key : ∀ pos, posSum (runPositionUpdates calls pos) = posSum pos by
    simpa using key []
  intro pos
  induction calls generalizing pos with
  | nil => rfl
  | cons c rest ih =>
    simp only [runPositionUpdates, List.foldl_cons] at *
    rw [ih (fun d hd => h d (List.mem_cons_of_mem _ hd))]
    exact posSum_update_positions c.registry c.submitting_trader c.submitting_side
      c.trades pos (h c (List.mem_cons_self _ _))

/-- C2 witness: a trade between a registered resting seller and a submitting
buyer keeps the ledger sum at zero. -/
theorem positions_zero_sum_witness :
    posSum (runPositionUpdates
      [⟨[(1, ⟨"alice", Side.sell⟩)], "bob", Side.buy, [(2, 1, 5)]⟩] []) = 0 :=
  positions_zero_sum [⟨[(1, ⟨"alice", Side.sell⟩)], "bob", Side.buy, [(2, 1, 5)]⟩]
    (by decide)

/-! ## C3: per-trade two-sided position update -/

/-- C3: for each trade `(buy_order_id, sell_order_id, qty)` processed with
submitting trader `sub` and side `side`, the buyer is `sub` when the side is
`Buy` and otherwise the registry lookup of `buy_order_id` (symmetrically for
the seller); `+qty` goes to the buyer and `-qty` to the seller; a failed
lookup silently skips that side while the other side is still applied.
The hypotheses say the submitting trader id is non-empty and the registry
holds non-empty trader ids, as guaranteed by the submission pipeline
(`validate_order_request` admits no empty `trader_id`). -/
theorem update_positions_per_trade (reg : Registry) (sub : String) (side : Side)
    (pos : Positions) (t : ℕ × ℕ × ℤ) (trader : String)
    (hsub : sub ≠ "")
    (hreg : ∀ e ∈ reg, e.2.trader_id ≠ "") :
    getPosition (updateTrade reg sub side pos t) trader =
      getPosition pos trader
      + (if (if side = Side.buy then some sub
            else (lookupRegistry reg t.1).map (fun r => r.trader_id)) = some trader
         then t.2.2 else 0)
      - (if (if side = Side.sell then some sub
            else (lookupRegistry reg t.2.1).map (fun r => r.trader_id)) = some trader
         then t.2.2 else 0) := by
  obtain ⟨bid, sid, q⟩ := t
  cases side with
  | buy =>
    cases hl : lookupRegistry reg sid with
    | none =>
      simp only [updateTrade, buyerOf, sellerOf, hl]
      simp [hsub, getPosition_apply_delta]
    | some r =>
      have hr : r.trader_id ≠ "" := hreg (sid, r) (lookupRegistry_mem hl)
      simp only [updateTrade, buyerOf, sellerOf, hl]
      simp [hsub, hr, getPosition_apply_delta]
      all_goals split_ifs <;> omega
  | sell =>
    cases hl : lookupRegistry reg bid with
    | none =>
      simp only [updateTrade, buyerOf, sellerOf, hl]
      simp [hsub, getPosition_apply_delta]
      all_goals split_ifs <;> omega
    | some r =>
      have hr : r.trader_id ≠ "" := hreg (bid, r) (lookupRegistry_mem hl)
      simp only [updateTrade, buyerOf, sellerOf, hl]
      simp [hsub, hr, getPosition_apply_delta]
      all_goals split_ifs <;> omega

/-- C3 witness: applied to a concrete registry and trade, the counterparty
seller "alice" ends at the old position minus the quantity. -/
theorem update_positions_per_trade_witness :
    getPosition (updateTrade [(1, ⟨"alice", Side.sell⟩)] "bob" Side.buy [] (2, 1, 5))
        "alice" =
      getPosition [] "alice"
      + (if (if Side.buy = Side.buy then some "bob"
            else (lookupRegistry [(1, ⟨"alice", Side.sell⟩)] (2, 1, 5).1).map
              (fun r => r.trader_id)) = some "alice"
         then (2, 1, (5:ℤ)).2.2 else 0)
      - (if (if Side.buy = Side.sell then some "bob"
            else (lookupRegistry [(1, ⟨"alice", Side.sell⟩)] (2, 1, 5).2.1).map
              (fun r => r.trader_id)) = some "alice"
         then (2, 1, (5:ℤ)).2.2 else 0) :=
  update_positions_per_trade [(1, ⟨"alice", Side.sell⟩)] "bob" Side.buy [] (2, 1, 5)
    "alice" (by decide) (by decide)

/-! ## C1: pre-trade rejections have no side effects -/

theorem validate_error_kind (req : OrderRequest) (er : ApiError)
    (h : validate_order_request req = .error er) : ∃ m, er = ApiError.Validation m := by
  simp only [validate_order_request] at h
  split_ifs at h
  all_goals try split at h
  all_goals try split_ifs at h
  all_goals simp only [Except.error.injEq, reduceCtorEq] at h
  all_goals exact ⟨_, h.symm⟩

theorem dollars_to_cents_error_kind (p : ℚ) (er : ApiError)
    (h : dollars_to_cents p = .error er) : ∃ m, er = ApiError.Validation m := by
  simp only [dollars_to_cents] at h
  split_ifs at h <;> simp only [Except.error.injEq, reduceCtorEq] at h <;>
    exact ⟨_, h.symm⟩

theorem price_cents_error_kind (req : OrderRequest) (er : ApiError)
    (h : Engine.price_cents req = .error er) : ∃ m, er = ApiError.Validation m := by
  simp only [Engine.price_cents] at h
  split at h
  · simp at h
  · split at h
    · simp only [Except.error.injEq] at h
      exact ⟨_, h.symm⟩
    · rename_i p hp
      cases hdc : dollars_to_cents p with
      | error e2 =>
        rw [hdc] at h
        simp only [Except.map, Except.error.injEq] at h
        subst h
        exact dollars_to_cents_error_kind _ _ hdc
      | ok c =>
        rw [hdc] at h
        simp [Except.map] at h

theorem engine_add_order_error_kind {β : Type} (bm : BookModel β) (e : EngineState β)
    (req : OrderRequest) (er : ApiError)
    (h : (Engine.add_order bm e req).1 = .error er) :
    (∃ m, er = ApiError.Validation m) ∨ (∃ m, er = ApiError.EngineRejection m) := by
  unfold Engine.add_order at h
  cases hv : validate_order_request req with
  | error e2 =>
    rw [hv] at h
    simp only [Except.error.injEq] at h
    subst h
    exact Or.inl (validate_error_kind _ _ hv)
  | ok u =>
    rw [hv] at h
    cases hpc : Engine.price_cents req with
    | error e2 =>
      rw [hpc] at h
      simp only [Except.error.injEq] at h
      subst h
      exact Or.inl (price_cents_error_kind _ _ hpc)
    | ok pc =>
      rw [hpc] at h
      simp only [] at h
      split_ifs at h
      all_goals simp only [Except.error.injEq, reduceCtorEq] at h
      all_goals exact Or.inr ⟨_, h.symm⟩

/-- C1: each submission that is rejected before the engine is invoked (a
rate-limit rejection or a risk rejection) leaves the order book, the position
ledger and the order registry unchanged.  This holds for every possible book
behaviour `bm`, so in particular the book transition `add_order` and the
registry operations are never invoked on these paths. -/
theorem submit_order_pretrade_rejection {β ρ : Type} (bm : BookModel β)
    (rlm : RateModel ρ) (cfg : RiskConfig) (s : ServiceState β ρ) (req : OrderRequest)
    (h : (∃ m, (submit_order bm rlm cfg s req).1 = .error (.RateLimited m)) ∨
         (∃ m, (submit_order bm rlm cfg s req).1 = .error (.RiskRejection m))) :
    (submit_order bm rlm cfg s req).2.engine.book = s.engine.book
    ∧ (submit_order bm rlm cfg s req).2.positions = s.positions
    ∧ (submit_order bm rlm cfg s req).2.registry = s.registry := by
  cases hrl : (rlm.check s.limiter req.trader_id).2 with
  | false =>
    have hstate : (submit_order bm rlm cfg s req).2 =
        { s with limiter := (rlm.check s.limiter req.trader_id).1 } := by
      simp [submit_order, hrl]
    rw [hstate]
    exact ⟨rfl, rfl, rfl⟩
  | true =>
    cases hco : check_order cfg s.positions req.trader_id req.quantity req.side
        req.order_type req.price (Engine.get_snapshot bm s.engine) with
    | error e2 =>
      have hstate : (submit_order bm rlm cfg s req).2 =
          { s with limiter := (rlm.check s.limiter req.trader_id).1 } := by
        simp [submit_order, hrl, hco]
      rw [hstate]
      exact ⟨rfl, rfl, rfl⟩
    | ok u =>
      rcases hadd : Engine.add_order bm s.engine req with ⟨eres, eng2⟩
      cases eres with
      | error er =>
        exfalso
        have hval : (submit_order bm rlm cfg s req).1 = .error er := by
          simp [submit_order, hrl, hco, hadd]
        have hkind := engine_add_order_error_kind bm s.engine req er (by rw [hadd])
        rcases h with ⟨m, hm⟩ | ⟨m, hm⟩ <;>
          · rw [hval] at hm
            simp only [Except.error.injEq] at hm
            rw [hm] at hkind
            rcases hkind with ⟨m2, hk⟩ | ⟨m2, hk⟩ <;> simp at hk
      | ok resp =>
        exfalso
        have hval : (submit_order bm rlm cfg s req).1 = .ok resp := by
          simp [submit_order, hrl, hco, hadd]
        rcases h with ⟨m, hm⟩ | ⟨m, hm⟩ <;> rw [hval] at hm <;> simp at hm

/-- C1 witness: a rate-limited submission leaves book, ledger and registry
untouched. -/
theorem submit_order_pretrade_rejection_witness :
    (submit_order trivialBook denyAllRate cfg0 svc0 req0).2.engine.book =
      svc0.engine.book
    ∧ (submit_order trivialBook denyAllRate cfg0 svc0 req0).2.positions =
        svc0.positions
    ∧ (submit_order trivialBook denyAllRate cfg0 svc0 req0).2.registry =
        svc0.registry :=
  submit_order_pretrade_rejection trivialBook denyAllRate cfg0 svc0 req0
    (Or.inl ⟨"Rate limit exceeded", rfl⟩)

/-! ## C4: registry lifecycle on cancel and modify -/

/-- A service state whose registry holds order `5` for trader `"alice"`. -/
def svcReg5 : ServiceState Unit Unit :=
  { engine := Engine.new (), positions := [], registry := [(5, ⟨"alice", Side.buy⟩)],
    limiter := () }

/-- Evaluates `dollars_to_cents` at an accepted price, given the rounded cent
value and the tolerance check. -/
theorem dollars_to_cents_eval {d : ℚ} {c : ℤ} (h0 : ¬ d < 0)
    (hc : roundHalfAwayFromZero (d * 100) = c)
    (htol : ¬ (1 / 1000 < |(c : ℚ) / 100 - d|)) :
    dollars_to_cents d = .ok c := by
  simp only [dollars_to_cents, if_neg h0, hc, if_neg htol]

/-- Evaluates `roundHalfAwayFromZero` on a nonnegative argument. -/
theorem roundHalfAwayFromZero_eval {x : ℚ} {n : ℤ} (h : 0 ≤ x)
    (h1 : (n : ℚ) ≤ x + 1 / 2) (h2 : x + 1 / 2 < n + 1) :
    roundHalfAwayFromZero x = n := by
  simp only [roundHalfAwayFromZero, if_pos h]
  rw [Int.floor_eq_iff]
  constructor
  · exact h1
  · exact_mod_cast h2

theorem dollars_to_cents_100 : dollars_to_cents 100 = .ok 10000 := by
  apply dollars_to_cents_eval (by norm_num)
  · apply roundHalfAwayFromZero_eval (by norm_num) (by norm_num) (by norm_num)
  · rw [show ((10000 : ℤ) : ℚ) / 100 - 100 = 0 by norm_num]
    norm_num

/-- C4 counterexample: with a book that reports the id as not found, the
service-layer `cancel_order` returns `NotFound` and leaves the registry entry
in place (the claim says it is removed unconditionally), and `modify_order`
on a `"not found"` engine reject also leaves the registry unchanged (the
claim says exactly this case removes it). -/
theorem registry_lifecycle_counterexample :
    (service_cancel_order trivialBook svcReg5 5).1 = Except.error (ApiError.NotFound 5)
    ∧ (service_cancel_order trivialBook svcReg5 5).2.registry =
        [(5, ⟨"alice", Side.buy⟩)]
    ∧ (service_modify_order trivialBook svcReg5 5 ⟨100, 10⟩).1 =
        Except.error (ApiError.NotFound 5)
    ∧ (service_modify_order trivialBook svcReg5 5 ⟨100, 10⟩).2.registry =
        [(5, ⟨"alice", Side.buy⟩)] := by
  have hsub : containsSub "order not found" "not found" = true := by decide
  have hmod : Engine.modify_order trivialBook (Engine.new ()) 5 ⟨100, 10⟩ =
      (Except.error (ApiError.NotFound 5), Engine.new ()) := by
    simp only [Engine.modify_order, dollars_to_cents_100]
    norm_num [trivialBook, hsub]
  refine ⟨rfl, ?_, ?_, ?_⟩
  · simp [service_cancel_order, Engine.cancel_order, trivialBook, svcReg5]
  · simp [service_modify_order, hmod, svcReg5]
  · simp [service_modify_order, hmod, svcReg5]

/-- C4 (amended): the service-layer `cancel_order` removes the id from the
registry exactly when the engine reports a successful cancel; when the engine
reports the id as not found, the error propagates and the registry is left
unchanged.  The service-layer `modify_order` never touches the registry, on
any outcome. -/
theorem service_registry_lifecycle {β ρ : Type} (bm : BookModel β)
    (s : ServiceState β ρ) (order_id : ℕ) (req : ModifyRequest) :
    (∀ resp, (service_cancel_order bm s order_id).1 = .ok resp →
      (service_cancel_order bm s order_id).2.registry =
        unregister_order s.registry order_id)
    ∧ (∀ err, (service_cancel_order bm s order_id).1 = .error err →
      (service_cancel_order bm s order_id).2.registry = s.registry)
    ∧ (service_modify_order bm s order_id req).2.registry = s.registry := by
  refine ⟨?_, ?_, ?_⟩
  · intro resp _
    unfold service_cancel_order
    rcases hc : Engine.cancel_order bm s.engine order_id with ⟨cres, eng2⟩
    cases cres with
    | error er =>
      exfalso
      rename_i hresp
      unfold service_cancel_order at hresp
      rw [hc] at hresp
      simp at hresp
    | ok r => simp
  · intro err _
    unfold service_cancel_order
    rcases hc : Engine.cancel_order bm s.engine order_id with ⟨cres, eng2⟩
    cases cres with
    | error er => simp
    | ok r =>
      exfalso
      rename_i herr
      unfold service_cancel_order at herr
      rw [hc] at herr
      simp at herr
  · unfold service_modify_order
    rcases hm : Engine.modify_order bm s.engine order_id req with ⟨mres, eng2⟩
    cases mres <;> simp

/-- C4 witness: the amended theorem applied at a concrete state shows the
modify path leaves the registry unchanged. -/
theorem service_registry_lifecycle_witness :
    (service_modify_order trivialBook svcReg5 5 ⟨100, 10⟩).2.registry =
      svcReg5.registry :=
  (service_registry_lifecycle trivialBook svcReg5 5 ⟨100, 10⟩).2.2

/-! ## C6: price conversion and sub-cent precision -/

theorem validate_eval_limit (req : OrderRequest) (h1 : req.trader_id.isEmpty = false)
    (h2 : ¬ 64 < req.trader_id.utf8ByteSize) (h3 : ¬ req.quantity ≤ 0)
    (h4 : req.order_type = OrderType.limit) (p : ℚ) (h5 : req.price = some p)
    (h6 : ¬ p ≤ 0) :
    validate_order_request req = .ok () := by
  simp [validate_order_request, h1, h2, h3, h4, h5, h6]

/-- C6 counterexample: the price `$0.0005` has sub-cent precision
(`price * 100` is not an integer), yet it passes request validation and
`dollars_to_cents` accepts it — converting it to `0` cents, which is not
positive.  The 0.001-dollar tolerance of the source accepts any price within
a tenth of a cent of a cent multiple. -/
theorem dollars_to_cents_counterexample :
    validate_order_request
      { trader_id := "a", price := some (1 / 2000), quantity := 1, side := Side.buy,
        order_type := OrderType.limit, time_in_force := TimeInForce.gtc,
        stp_mode := StpMode.allow } = Except.ok ()
    ∧ dollars_to_cents (1 / 2000) = Except.ok 0
    ∧ (1 / 2000 : ℚ) * 100 ≠ ((⌊(1 / 2000 : ℚ) * 100⌋ : ℤ) : ℚ) := by
  refine ⟨?_, ?_, ?_⟩
  · exact validate_eval_limit _ (by decide) (by decide) (by decide) rfl (1 / 2000) rfl
      (by norm_num)
  · apply dollars_to_cents_eval (by norm_num)
    · exact roundHalfAwayFromZero_eval (by norm_num) (by norm_num) (by norm_num)
    · rw [show ((0 : ℤ) : ℚ) / 100 - 1 / 2000 = -(1 / 2000) by norm_num, abs_neg,
        abs_of_nonneg (by norm_num)]
      norm_num
  · have hf : (⌊(1 / 2000 : ℚ) * 100⌋ : ℤ) = 0 := by
      rw [Int.floor_eq_iff] <;> norm_num
    rw [hf]
    norm_num

/-- C6 (amended): for a positive limit price `p`, `dollars_to_cents` accepts
exactly when the rounded cent value round-trips to within `0.001` dollars of
`p` — so a sub-cent price inside that tolerance is accepted rather than
rejected; every accepted price converts to `roundHalfAwayFromZero (p * 100)`
cents, a nonnegative value that is positive whenever `p` exceeds `0.001`
(but zero for positive prices at or below `0.001`); and when the conversion
rejects, `Engine.add_order` returns the error before the book is touched. -/
theorem dollars_to_cents_amended (p : ℚ) (hp : 0 < p) :
    ((∃ c, dollars_to_cents p = Except.ok c) ↔
      |((roundHalfAwayFromZero (p * 100) : ℤ) : ℚ) / 100 - p| ≤ 1 / 1000)
    ∧ (∀ c, dollars_to_cents p = Except.ok c →
        c = roundHalfAwayFromZero (p * 100) ∧ 0 ≤ c ∧ (1 / 1000 < p → 0 < c))
    ∧ (∀ {β : Type} (bm : BookModel β) (e : EngineState β) (req : OrderRequest)
        (er : ApiError),
        req.order_type = OrderType.limit → req.price = some p →
        dollars_to_cents p = .error er →
        (Engine.add_order bm e req).2.book = e.book) := by
  have h0 : ¬ p < 0 := not_lt.mpr hp.le
  have hnn : (0 : ℤ) ≤ roundHalfAwayFromZero (p * 100) := by
    unfold roundHalfAwayFromZero
    rw [if_pos (by positivity)]
    apply Int.floor_nonneg.mpr
    positivity
  refine ⟨?_, ?_, ?_⟩
  · simp only [dollars_to_cents, if_neg h0]
    split_ifs with htol
    · exact iff_of_false (by simp) (not_le.mpr htol)
    · exact iff_of_true ⟨_, rfl⟩ (not_lt.mp htol)
  · intro c hc
    simp only [dollars_to_cents, if_neg h0] at hc
    split_ifs at hc with htol
    all_goals simp only [Except.ok.injEq, reduceCtorEq] at hc
    all_goals (
      refine ⟨hc.symm, hc ▸ hnn, fun hpp => ?_⟩
      by_contra hle
      push_neg at hle
      have hc0 : roundHalfAwayFromZero (p * 100) = 0 := by omega
      rw [hc0] at htol
      apply htol
      rw [show ((0 : ℤ) : ℚ) / 100 - p = -p by norm_num, abs_neg,
        abs_of_nonneg hp.le]
      exact hpp)
  · intro β bm e req er hot hpr herr
    have hpcerr : Engine.price_cents req = .error er := by
      simp [Engine.price_cents, hot, hpr, herr, Except.map]
    unfold Engine.add_order
    cases hv : validate_order_request req with
    | error e2 => simp [hv]
    | ok u => simp [hv, hpcerr]

/-- C6 witness: the price `$100.50` is accepted by the conversion. -/
theorem dollars_to_cents_amended_witness :
    ∃ c, dollars_to_cents ((201 : ℚ) / 2) = Except.ok c :=
  ((dollars_to_cents_amended ((201 : ℚ) / 2) (by norm_num)).1).mpr (by
    have hr : roundHalfAwayFromZero ((201 : ℚ) / 2 * 100) = 10050 :=
      roundHalfAwayFromZero_eval (by norm_num) (by norm_num) (by norm_num)
    rw [hr, show ((10050 : ℤ) : ℚ) / 100 - (201 : ℚ) / 2 = 0 by norm_num]
    norm_num)

/-! ## C8: order-id allocation -/

/-- A run of `Engine::add_order` calls from a fresh engine over the recording
book: the final state's book holds exactly the orders submitted to the book,
in call order. -/
def runAdds (reqs : List OrderRequest) : EngineState (List BookOrder) :=
  reqs.foldl (fun e r => (Engine.add_order recordingBook e r).2) (Engine.new [])

theorem add_order_recording_cases (e : EngineState (List BookOrder))
    (r : OrderRequest) :
    ((Engine.add_order recordingBook e r).2.book = e.book ∧
      ((Engine.add_order recordingBook e r).2.next_order_id = e.next_order_id ∨
        (Engine.add_order recordingBook e r).2.next_order_id =
          (e.next_order_id + 1) % U64MOD))
    ∨ (∃ o : BookOrder, o.id = e.next_order_id ∧
        (Engine.add_order recordingBook e r).2.book = e.book ++ [o] ∧
        (Engine.add_order recordingBook e r).2.next_order_id =
          (e.next_order_id + 1) % U64MOD) := by
  unfold Engine.add_order
  cases hv : validate_order_request r with
  | error er => left; simp
  | ok u =>
    cases hpc : Engine.price_cents r with
    | error er => left; simp
    | ok pc =>
      right
      refine ⟨Engine.submitted_order e r pc, rfl, ?_, ?_⟩
      · simp only []
        split_ifs <;> simp [recordingBook]
      · simp only []
        split_ifs <;> rfl

theorem runAdds_inv (reqs : List OrderRequest) :
    ∀ e : EngineState (List BookOrder),
      (e.book.map (fun o => o.id)).Pairwise (· < ·) →
      (∀ o ∈ e.book, 1 ≤ o.id ∧ o.id < e.next_order_id) →
      1 ≤ e.next_order_id →
      e.next_order_id + reqs.length ≤ U64MOD →
      (((reqs.foldl (fun e r => (Engine.add_order recordingBook e r).2) e).book.map
          (fun o => o.id)).Pairwise (· < ·))
      ∧ (∀ o ∈ (reqs.foldl (fun e r => (Engine.add_order recordingBook e r).2) e).book,
          1 ≤ o.id ∧ o.id < e.next_order_id + reqs.length) := by
  have h64 : U64MOD = 18446744073709551616 := by norm_num [U64MOD]
  induction reqs with
  | nil =>
    intro e h1 h2 h3 _
    simp only [List.foldl_nil, List.length_nil]
    exact ⟨h1, fun o ho => ⟨(h2 o ho).1, by have := (h2 o ho).2; omega⟩⟩
  | cons r rest ih =>
    intro e h1 h2 h3 hlen
    simp only [List.foldl_cons, List.length_cons] at *
    rcases add_order_recording_cases e r with ⟨hb, hn⟩ | ⟨o, hoid, hb, hn⟩
    · -- no book mutation; the id counter may or may not have been consumed
      rcases hn with hn | hn
      · have key := ih (Engine.add_order recordingBook e r).2
          (by rw [hb]; exact h1) (by rw [hb, hn]; exact h2) (by rw [hn]; exact h3)
          (by rw [hn]; omega)
        refine ⟨key.1, fun o ho => ⟨(key.2 o ho).1, ?_⟩⟩
        have := (key.2 o ho).2
        rw [hn] at this
        omega
      · by_cases hlt : e.next_order_id + 1 < U64MOD
        · have hmod : (e.next_order_id + 1) % U64MOD = e.next_order_id + 1 :=
            Nat.mod_eq_of_lt hlt
        -- counter advanced by one; invariants shift accordingly
          have key := ih (Engine.add_order recordingBook e r).2
            (by rw [hb]; exact h1)
            (by
              rw [hb, hn, hmod]
              exact fun o ho => ⟨(h2 o ho).1, by have := (h2 o ho).2; omega⟩)
            (by rw [hn, hmod]; omega)
            (by rw [hn, hmod]; omega)
          refine ⟨key.1, fun o ho => ⟨(key.2 o ho).1, ?_⟩⟩
          have := (key.2 o ho).2
          rw [hn, hmod] at this
          omega
        · -- the counter would wrap: only possible when no request follows
          have hrest : rest.length = 0 := by omega
          have hrest2 : rest = [] := List.length_eq_zero.mp hrest
          subst hrest2
          simp only [List.foldl_nil]
          refine ⟨by rw [hb]; exact h1, fun o ho => ?_⟩
          rw [hb] at ho
          exact ⟨(h2 o ho).1, by have := (h2 o ho).2; omega⟩
    · -- an order with the fresh id was appended to the book
      have hpw2 : (((Engine.add_order recordingBook e r).2.book.map
          (fun o => o.id)).Pairwise (· < ·)) := by
        rw [hb, List.map_append, List.pairwise_append]
        refine ⟨h1, by simp, ?_⟩
        intro a ha b hbm
        simp only [List.mem_map] at ha
        simp only [List.map_cons, List.map_nil, List.mem_singleton] at hbm
        obtain ⟨oa, hoa, rfl⟩ := ha
        rw [hbm, hoid]
        exact (h2 oa hoa).2
      have hmem2 : ∀ o2 ∈ (Engine.add_order recordingBook e r).2.book,
          1 ≤ o2.id ∧ o2.id < e.next_order_id + 1 := by
        intro o2 ho2
        rw [hb] at ho2
        rcases List.mem_append.mp ho2 with hin | hin
        · exact ⟨(h2 o2 hin).1, by have := (h2 o2 hin).2; omega⟩
        · simp only [List.mem_singleton] at hin
          rw [hin, hoid]
          omega
      by_cases hlt : e.next_order_id + 1 < U64MOD
      · have hmod : (e.next_order_id + 1) % U64MOD = e.next_order_id + 1 :=
          Nat.mod_eq_of_lt hlt
        have key := ih (Engine.add_order recordingBook e r).2 hpw2
          (by rw [hn, hmod]; exact hmem2)
          (by rw [hn, hmod]; omega)
          (by rw [hn, hmod]; omega)
        refine ⟨key.1, fun o2 ho2 => ⟨(key.2 o2 ho2).1, ?_⟩⟩
        have := (key.2 o2 ho2).2
        rw [hn, hmod] at this
        omega
      · have hrest : rest.length = 0 := by omega
        have hrest2 : rest = [] := List.length_eq_zero.mp hrest
        subst hrest2
        simp only [List.foldl_nil]
        exact ⟨hpw2, fun o2 ho2 => ⟨(hmem2 o2 ho2).1, by
          have := (hmem2 o2 ho2).2; omega⟩⟩

/-- C8: starting from a fresh engine, across any run of `add_order` calls
(fewer than `2^64` of them, the wrap-around bound of the `u64` counter) the
order ids recorded by the book are strictly increasing in submission order —
hence unique for the book's lifetime — every id is at least `1` (ids start
at `1`), and every id is bounded by the number of calls (each call submits at
most one freshly allocated id). -/
theorem engine_order_ids_increasing (reqs : List OrderRequest)
    (h : reqs.length < U64MOD) :
    (((runAdds reqs).book.map (fun o => o.id)).Pairwise (· < ·))
    ∧ (∀ o ∈ (runAdds reqs).book, 1 ≤ o.id ∧ o.id ≤ reqs.length) := by
  have h64 : U64MOD = 18446744073709551616 := by norm_num [U64MOD]
  have key := runAdds_inv reqs (Engine.new []) (by simp [Engine.new])
    (by simp [Engine.new]) (by simp [Engine.new]) (by simp [Engine.new]; omega)
  refine ⟨key.1, fun o ho => ⟨(key.2 o ho).1, ?_⟩⟩
  have := (key.2 o ho).2
  simp only [Engine.new] at this
  omega

/-- C8 witness: a two-request run records strictly increasing ids. -/
theorem engine_order_ids_increasing_witness :
    (((runAdds [req0, req0]).book.map (fun o => o.id)).Pairwise (· < ·)) :=
  (engine_order_ids_increasing [req0, req0] (by norm_num [U64MOD])).1

/-! ## C10: health counters -/

/-- C10 counterexample: a limit order at `$100.004` passes
`validate_order_request` (the price is positive), yet `Engine::add_order`
rejects it in the price conversion and leaves `total_orders` at `0` — so a
call that passes request validation does not always increment the counter. -/
theorem engine_counters_counterexample :
    validate_order_request
      { trader_id := "a", price := some (25001 / 250), quantity := 1, side := Side.buy,
        order_type := OrderType.limit, time_in_force := TimeInForce.gtc,
        stp_mode := StpMode.allow } = Except.ok ()
    ∧ (Engine.add_order trivialBook (Engine.new ())
        { trader_id := "a", price := some (25001 / 250), quantity := 1, side := Side.buy,
          order_type := OrderType.limit, time_in_force := TimeInForce.gtc,
          stp_mode := StpMode.allow }).2.total_orders = 0 := by
  have hval : validate_order_request
      { trader_id := "a", price := some (25001 / 250), quantity := 1, side := Side.buy,
        order_type := OrderType.limit, time_in_force := TimeInForce.gtc,
        stp_mode := StpMode.allow } = Except.ok () :=
    validate_eval_limit _ (by decide) (by decide) (by decide) rfl (25001 / 250) rfl
      (by norm_num)
  have hround : roundHalfAwayFromZero ((25001 : ℚ) / 250 * 100) = 10000 :=
    roundHalfAwayFromZero_eval (by norm_num) (by norm_num) (by norm_num)
  have herr : dollars_to_cents ((25001 : ℚ) / 250) =
      .error (.Validation "Price precision limited to 2 decimal places") := by
    simp only [dollars_to_cents, if_neg (by norm_num : ¬ ((25001 : ℚ) / 250) < 0), hround]
    rw [if_pos]
    rw [show ((10000 : ℤ) : ℚ) / 100 - (25001 : ℚ) / 250 = -(1 / 250) by norm_num,
      abs_neg, abs_of_nonneg (by norm_num)]
    norm_num
  refine ⟨hval, ?_⟩
  simp [Engine.add_order, hval, Engine.price_cents, herr, Except.map, Engine.new]

/-- C10 (amended): every `Engine::add_order` call that passes request
validation and the limit-price conversion increments `total_orders` by
exactly one and `total_trades` by the number of trades in the book's result,
whether or not the book accepts the order (the counters are bumped before the
acceptance test); the wrap bounds keep the `u64` counters below `2^64`. -/
theorem engine_counters_amended {β : Type} (bm : BookModel β) (e : EngineState β)
    (req : OrderRequest) (pc : Option ℤ)
    (hv : validate_order_request req = .ok ())
    (hpc : Engine.price_cents req = .ok pc)
    (ho : e.total_orders + 1 < U64MOD)
    (ht : e.total_trades +
        ((bm.add_order e.book (Engine.submitted_order e req pc)).2).trades.length <
      U64MOD) :
    (Engine.add_order bm e req).2.total_orders = e.total_orders + 1
    ∧ (Engine.add_order bm e req).2.total_trades =
        e.total_trades +
          ((bm.add_order e.book (Engine.submitted_order e req pc)).2).trades.length := by
  unfold Engine.add_order
  rw [hv, hpc]
  simp only []
  split_ifs <;>
    exact ⟨Nat.mod_eq_of_lt ho, Nat.mod_eq_of_lt ht⟩

/-- C10 witness: a valid limit order through the trivial book bumps
`total_orders` from `0` to `1` and `total_trades` by the empty trade list. -/
theorem engine_counters_amended_witness :
    (Engine.add_order trivialBook (Engine.new ()) req0).2.total_orders = 1
    ∧ (Engine.add_order trivialBook (Engine.new ()) req0).2.total_trades = 0 :=
  engine_counters_amended trivialBook (Engine.new ()) req0 (some 10000)
    (validate_eval_limit _ (by decide) (by decide) (by decide) rfl 100 rfl (by norm_num))
    (by simp [Engine.price_cents, req0, dollars_to_cents_100, Except.map])
    (by norm_num [Engine.new, U64MOD])
    (by norm_num [Engine.new, trivialBook, U64MOD])

end Orderflow
